import Mathlib

/-!
Shallow embedding of the aggregation engine of `src/Expense.py`
(`Expense`, `ExpenseManager`) and `src/Sales_analytics.py`
(`Product`, `Sale`, `Sales_analytics`).

Conventions of the embedding:
* Python `float` amounts and prices are modelled as exact rationals (`ℚ`).
* Python exceptions are modelled with `Except String`; a method that can
  raise while also mutating state returns the result paired with the state
  after the call, the state being unchanged when the call raises.
* Python strings are modelled as Lean `String`s, but all character level
  work (`split`, `strip`, `lower`, lexicographic comparison) is done on
  `String.data` with structurally recursive functions, since the builtin
  `String` routines do not reduce in the kernel.
* `sorted(...)` is modelled by `List.mergeSort`, which is a stable sort
  exactly like CPython's; `sorted(..., reverse=True)` is `mergeSort` with
  the flipped comparator, which also matches CPython (ties keep their
  original relative order even under `reverse=True`).
* Python list slicing `l[:n]` for a possibly negative `n` is modelled by
  `pySlice`.
-/

/-- Model of `str.split("-")` on the character list of a string: splits at
every hyphen, keeping empty fragments, so `""` gives `[[]]` just as
`"".split("-")` gives `[""]` in Python. -/
def splitDash : List Char → List (List Char)
  | [] => [[]]
  | c :: rest =>
    if c = '-' then [] :: splitDash rest
    else
      match splitDash rest with
      | [] => [[c]]
      | g :: gs => (c :: g) :: gs

/-- ASCII whitespace stripping from both ends, modelling `str.strip()` as
used implicitly by `int(...)` on its argument. -/
def trimChars (cs : List Char) : List Char :=
  ((cs.dropWhile Char.isWhitespace).reverse.dropWhile Char.isWhitespace).reverse

/-- Numeric value of a list of decimal digit characters. -/
def natOfDigits (l : List Char) : Nat :=
  l.foldl (fun a c => a * 10 + (c.toNat - '0'.toNat)) 0

/-- Model of the Python builtin `int(s)` on a string fragment: optional
surrounding whitespace, an optional sign, then one or more decimal digits;
anything else raises `ValueError`, modelled as `none`.  (CPython extras
such as underscore digit separators and non-ASCII digits are not
modelled.) -/
def pyInt (cs : List Char) : Option Int :=
  match trimChars cs with
  | '+' :: rest =>
    if rest ≠ [] ∧ rest.all Char.isDigit then some (natOfDigits rest) else none
  | '-' :: rest =>
    if rest ≠ [] ∧ rest.all Char.isDigit then some (-(natOfDigits rest : Int)) else none
  | rest =>
    if rest ≠ [] ∧ rest.all Char.isDigit then some (natOfDigits rest) else none

/-- ASCII model of `str.lower()`, applied to the character list. -/
def pyLower (s : String) : List Char :=
  s.data.map Char.toLower

/-- Python list slicing `l[:n]` for an `int` `n`: a nonnegative `n` takes
the first `n` elements (all of them when `n` exceeds the length), while a
negative `n` drops the last `min (-n) (length)` elements. -/
def pySlice {α : Type} (l : List α) (n : Int) : List α :=
  if n < 0 then l.take ((l.length : Int) + n).toNat else l.take n.toNat

/-- One expense record, with the fields as stored by `Expense.__init__`
(`amount` already coerced to a number, the string fields already
stripped). -/
structure Expense where
  amount : ℚ
  category : String
  date : String
  note : String
deriving DecidableEq, Repr

/-- `Expense.date_tuple`: splits `self.date` at hyphens; a split that does
not have exactly three fragments returns the sentinel `(0, 0, 0)`, and
otherwise each fragment is parsed with `int(...)`, which raises
(`.error`) on a non-numeric fragment. -/
def Expense.date_tuple (e : Expense) : Except String (Int × Int × Int) :=
  match splitDash e.date.data with
  | [p0, p1, p2] =>
    match pyInt p0 with
    | none => .error "ValueError: invalid literal for int() with base 10"
    | some y =>
      match pyInt p1 with
      | none => .error "ValueError: invalid literal for int() with base 10"
      | some mo =>
        match pyInt p2 with
        | none => .error "ValueError: invalid literal for int() with base 10"
        | some d => .ok (y, mo, d)
  | _ => .ok (0, 0, 0)

/-- The `(year, month)` bucket of an expense, defined when `date_tuple`
succeeds; the `(0, 0)` default is never used under that hypothesis. -/
def Expense.monthOf (e : Expense) : Int × Int :=
  match e.date_tuple with
  | .ok (y, mo, _) => (y, mo)
  | .error _ => (0, 0)

/-- A value that may be handed to `add_expense`: either an actual
`Expense` or some other Python object, which `isinstance` rejects. -/
inductive PyVal where
  | expense (e : Expense)
  | str (s : String)
  | num (q : ℚ)
  | pyNone
deriving DecidableEq

/-- `ExpenseManager` state: the ordered list of expenses and the derived
set of distinct categories. -/
structure ExpenseManager where
  expenses : List Expense
  categories : Finset String
deriving DecidableEq

/-- `ExpenseManager.__init__`: empty list, empty category set. -/
def ExpenseManager.init : ExpenseManager := ⟨[], ∅⟩

/-- `ExpenseManager.add_expense`: rejects a non-`Expense` argument with
`TypeError` before touching any state, otherwise appends the expense and
adds its category to the category set. -/
def ExpenseManager.add_expense (m : ExpenseManager) (v : PyVal) :
    Except String Unit × ExpenseManager :=
  match v with
  | .expense e => (.ok (), ⟨m.expenses ++ [e], insert e.category m.categories⟩)
  | _ => (.error "TypeError: add_expense expects an Expense object", m)

/-- `ExpenseManager._rebuild_categories`: the category set recomputed from
scratch from a list of expenses. -/
def _rebuild_categories (expenses : List Expense) : Finset String :=
  expenses.foldl (fun s e => insert e.category s) ∅

/-- `ExpenseManager.remove_expense_by_index`: raises `IndexError` (state
unchanged) when the index is outside `[0, len)`, otherwise pops the
expense at that index, rebuilds the category set from the remaining
expenses, and returns the removed expense. -/
def ExpenseManager.remove_expense_by_index (m : ExpenseManager) (index : Int) :
    Except String Expense × ExpenseManager :=
  if h : index < 0 ∨ (m.expenses.length : Int) ≤ index then
    (.error "IndexError: Index out of range", m)
  else
    have hlt : index.toNat < m.expenses.length := by omega
    let removed := m.expenses.get ⟨index.toNat, hlt⟩
    let remaining := m.expenses.take index.toNat ++ m.expenses.drop (index.toNat + 1)
    (.ok removed, ⟨remaining, _rebuild_categories remaining⟩)

/-- `ExpenseManager.filter_by_category`: case-insensitive comparison via
`str.lower()` on both sides. -/
def ExpenseManager.filter_by_category (m : ExpenseManager) (category : String) :
    List Expense :=
  m.expenses.filter (fun e => decide (pyLower e.category = pyLower category))

/-- `ExpenseManager.total_spent`: running sum of the amounts. -/
def ExpenseManager.total_spent (m : ExpenseManager) : ℚ :=
  m.expenses.foldl (fun total e => total + e.amount) 0

/-- One `d[k] += v` step on a Python dict modelled as an insertion-ordered
association list with distinct keys: both the
`if k not in d: d[k] = 0.0` / `d[k] += v` idiom of `total_by_category`
and the `defaultdict(float)` idiom of the sales variant update an
existing entry in place and append a missing key at the end. -/
def dictAdd {α : Type} [DecidableEq α] : List (α × ℚ) → α → ℚ → List (α × ℚ)
  | [], k, v => [(k, v)]
  | p :: rest, k, v =>
    if p.1 = k then (p.1, p.2 + v) :: rest else p :: dictAdd rest k v

/-- Folding `dictAdd` over a list of key/value pairs, starting from the
empty dict: the common shape of every grouped total in both programs. -/
def groupFold {α : Type} [DecidableEq α] (ps : List (α × ℚ)) : List (α × ℚ) :=
  ps.foldl (fun acc p => dictAdd acc p.1 p.2) []

/-- Total of the values attached to key `k` in a list of pairs. -/
def keySum {α : Type} [DecidableEq α] (ps : List (α × ℚ)) (k : α) : ℚ :=
  ((ps.filter (fun p => decide (p.1 = k))).map Prod.snd).sum

/-- The distinct keys of a list in order of first occurrence: the
iteration order of a Python dict built by repeated `d[k] += v`. -/
def firstKeys {α : Type} [DecidableEq α] (ks : List α) : List α :=
  ks.foldl (fun acc k => if k ∈ acc then acc else acc ++ [k]) []

/-- `ExpenseManager.total_by_category`: insertion-ordered dict from
category to summed amount. -/
def ExpenseManager.total_by_category (m : ExpenseManager) : List (String × ℚ) :=
  m.expenses.foldl (fun totals e => dictAdd totals e.category e.amount) []

/-- Comparator of `sorted(self.expenses, key=lambda x: x.amount,
reverse=True)`: descending by amount, ties stable. -/
def leAmountDesc (a b : Expense) : Bool := decide (b.amount ≤ a.amount)

/-- `ExpenseManager.top_expenses`: the expenses sorted descending by
amount (stable), then sliced with `[:n]`. -/
def ExpenseManager.top_expenses (m : ExpenseManager) (n : Int) : List Expense :=
  pySlice (m.expenses.mergeSort leAmountDesc) n

/-- `ExpenseManager.monthly_summary`: insertion-ordered dict from
`(year, month)` (as produced by `date_tuple`, whose `ValueError`
propagates) to summed amount.  The source does not sort this dict; only
the display code does. -/
def ExpenseManager.monthly_summary (m : ExpenseManager) :
    Except String (List ((Int × Int) × ℚ)) :=
  m.expenses.foldlM
    (fun summary e => do
      let (y, mo, _) ← e.date_tuple
      pure (dictAdd summary (y, mo) e.amount)) []

/-- `ExpenseManager.average_expense`: `total_spent / count`, guarded to
`0` on an empty list. -/
def ExpenseManager.average_expense (m : ExpenseManager) : ℚ :=
  if m.expenses.length = 0 then 0
  else m.total_spent / (m.expenses.length : ℚ)

/-- A catalog item of the sales variant. -/
structure Product where
  name : String
  category : String
  price : ℚ
deriving DecidableEq, Repr

/-- A parsed calendar date as held by `datetimedate` values. -/
structure PyDate where
  year : Int
  month : Int
  day : Int
deriving DecidableEq, Repr

/-- Gregorian leap-year rule used by the `datetime` module. -/
def isLeapYear (y : Int) : Bool :=
  (y % 4 == 0 && y % 100 != 0) || y % 400 == 0

/-- Number of days of a month, used by `strptime` date validation. -/
def daysInMonth (y m : Int) : Int :=
  if m = 2 then (if isLeapYear y then 29 else 28)
  else if m = 4 ∨ m = 6 ∨ m = 9 ∨ m = 11 then 30
  else 31

/-- The day field matched by `strptime`'s `%d`: CPython's pattern is
`3[01]|[12]\d|0[1-9]|[1-9]| [1-9]`, i.e. one or two decimal digits, or
a space followed by a nonzero digit; gives the numeric day value (the
pattern's own 0-31 bound is subsumed by the later calendar check). -/
def dayField : List Char → Option Int
  | [' ', c] =>
    if '1' ≤ c ∧ c ≤ '9' then some ((c.toNat - '0'.toNat : Nat) : Int) else none
  | ds =>
    if ds ≠ [] ∧ ds.length ≤ 2 ∧ ds.all Char.isDigit then
      some ((natOfDigits ds : Nat) : Int)
    else none

/-- Model of `datetime.strptime(s, "%Y-%m-%d")` following CPython's
`_strptime` field patterns over ASCII digits: `%Y` is exactly four
digits, `%m` is one or two digits valued 1-12, `%d` is `dayField`
(one or two digits, or a space-padded single digit) whose value must fit
the month, and the year must be at least 1 (`datetime.MINYEAR`; four
digits already bound it by 9999); anything else raises `ValueError`,
modelled as `none`.  (Non-ASCII digits, which CPython's regex also
matches, are not modelled, as elsewhere in this embedding.) -/
def strptimeYmd (s : String) : Option PyDate :=
  match splitDash s.data with
  | [ys, ms, ds] =>
    match dayField ds with
    | none => none
    | some d =>
      if ys.length = 4 ∧ ys.all Char.isDigit ∧
         ms ≠ [] ∧ ms.length ≤ 2 ∧ ms.all Char.isDigit then
        let y : Int := natOfDigits ys
        let mo : Int := natOfDigits ms
        if 1 ≤ y ∧ 1 ≤ mo ∧ mo ≤ 12 ∧ 1 ≤ d ∧ d ≤ daysInMonth y mo then
          some ⟨y, mo, d⟩
        else none
      else none
  | _ => none

/-- One sale record of the sales variant. -/
structure Sale where
  sale_id : Int
  product : Product
  quantity : Int
  date : PyDate
deriving DecidableEq, Repr

/-- `Sale.__init__`: stores the fields and parses `date_str` with
`strptime`, so a malformed date string makes construction raise. -/
def Sale.make (sale_id : Int) (product : Product) (quantity : Int)
    (date_str : String) : Except String Sale :=
  match strptimeYmd date_str with
  | some d => .ok ⟨sale_id, product, quantity, d⟩
  | none => .error "ValueError: time data does not match format"

/-- `Sale.get_revenue`: `quantity * product.price`. -/
def Sale.get_revenue (s : Sale) : ℚ := (s.quantity : ℚ) * s.product.price

/-- `Sales_analytics` holds the list of sales given to its constructor. -/
structure Sales_analytics where
  sales : List Sale
deriving DecidableEq

/-- `Sales_analytics.total_revenue`: running sum of the revenues. -/
def Sales_analytics.total_revenue (a : Sales_analytics) : ℚ :=
  a.sales.foldl (fun total s => total + s.get_revenue) 0

/-- Comparator of `sorted(items, key=lambda x: x[1], reverse=True)` on
`(key, total)` pairs: descending by total, ties stable. -/
def leSndDesc {α : Type} (p q : α × ℚ) : Bool := decide (q.2 ≤ p.2)

/-- Comparator of `sorted(items, key=lambda x: x[1])`: ascending by
total, ties stable. -/
def leSndAsc {α : Type} (p q : α × ℚ) : Bool := decide (p.2 ≤ q.2)

/-- `Sales_analytics.revenue_by_category`: per-category revenue totals,
sorted descending by total. -/
def Sales_analytics.revenue_by_category (a : Sales_analytics) : List (String × ℚ) :=
  (a.sales.foldl (fun t s => dictAdd t s.product.category s.get_revenue) []).mergeSort
    leSndDesc

/-- The `product_totals` dict built identically inside both `top_product`
and `lowest_product`: per-product-name revenue totals in first-occurrence
order. -/
def Sales_analytics.productTotals (a : Sales_analytics) : List (String × ℚ) :=
  a.sales.foldl (fun t s => dictAdd t s.product.name s.get_revenue) []

/-- `Sales_analytics.top_product`: product totals ranked descending by
revenue, sliced with `[:how_many]`. -/
def Sales_analytics.top_product (a : Sales_analytics) (how_many : Int) :
    List (String × ℚ) :=
  pySlice (a.productTotals.mergeSort leSndDesc) how_many

/-- `Sales_analytics.lowest_product`: product totals ranked ascending by
revenue, sliced with `[:how_many]`. -/
def Sales_analytics.lowest_product (a : Sales_analytics) (how_many : Int) :
    List (String × ℚ) :=
  pySlice (a.productTotals.mergeSort leSndAsc) how_many

/-- Two-digit zero padding, modelling strftime `%m`. -/
def pad2 (n : Int) : String :=
  if 0 ≤ n ∧ n < 10 then "0" ++ toString n else toString n

/-- Model of `date.strftime("%Y-%m")` (glibc behaviour: the year is
printed unpadded, the month zero-padded to two digits). -/
def monthKey (d : PyDate) : String := toString d.year ++ "-" ++ pad2 d.month

/-- Python tuple comparison on the `(month-key string, total)` items of
the monthly dict, as used by `sorted(monthly.items())`: lexicographic by
code points on the key, then by the total. -/
def leKeyPair (p q : String × ℚ) : Bool :=
  decide (p.1.data < q.1.data) || (decide (p.1 = q.1) && decide (p.2 ≤ q.2))

/-- `Sales_analytics.monthly_trend`: per-month revenue totals keyed by
the `strftime("%Y-%m")` string, sorted ascending by key. -/
def Sales_analytics.monthly_trend (a : Sales_analytics) : List (String × ℚ) :=
  (a.sales.foldl (fun t s => dictAdd t (monthKey s.date) s.get_revenue) []).mergeSort
    leKeyPair

/-- `Sales_analytics.average_order_value`: `total_revenue / count`,
guarded to `0` on an empty list. -/
def Sales_analytics.average_order_value (a : Sales_analytics) : ℚ :=
  if a.sales.length = 0 then 0
  else a.total_revenue / (a.sales.length : ℚ)

/-- The category-set consistency invariant of claim C5: the derived
`categories` set holds exactly the categories of the stored expenses. -/
def categoriesConsistent (m : ExpenseManager) : Prop :=
  m.categories = (m.expenses.map Expense.category).toFinset

/-- Value lookup in an association list, modelling `d[k]` read access. -/
def lookupQ {α : Type} [DecidableEq α] (l : List (α × ℚ)) (k : α) : Option ℚ :=
  (l.find? (fun p => decide (p.1 = k))).map Prod.snd

theorem dictAdd_lookup {α : Type} [DecidableEq α] (l : List (α × ℚ)) (k0 k : α) (v : ℚ) :
    lookupQ (dictAdd l k0 v) k =
      if k = k0 then some ((lookupQ l k0).getD 0 + v) else lookupQ l k := by
  induction l with
  | nil =>
    by_cases h : k = k0
    · subst h; simp [dictAdd, lookupQ, List.find?]
    · have h2 : ¬(k0 = k) := fun hh => h hh.symm
      simp [dictAdd, lookupQ, List.find?, h, h2]
  | cons p rest ih =>
    simp only [dictAdd]
    by_cases hpk : p.1 = k0
    · rw [if_pos hpk]
      by_cases h : k = k0
      · subst h
        simp [lookupQ, List.find?, hpk]
      · have h2 : ¬(p.1 = k) := fun hh => h ((hpk.symm.trans hh).symm)
        have h3 : ¬(k0 = k) := fun hh => h hh.symm
        simp [lookupQ, List.find?, h, h2, h3]
    · rw [if_neg hpk]
      by_cases hp : p.1 = k
      · have h : ¬(k = k0) := fun hh => hpk (hp.trans hh)
        simp [lookupQ, List.find?, hp, h, hpk]
      · simp only [lookupQ, List.find?] at ih ⊢
        simpa [hp, hpk] using ih

theorem dictAdd_keys {α : Type} [DecidableEq α] (l : List (α × ℚ)) (k : α) (v : ℚ) :
    (dictAdd l k v).map Prod.fst =
      if k ∈ l.map Prod.fst then l.map Prod.fst else l.map Prod.fst ++ [k] := by
  induction l with
  | nil => simp [dictAdd]
  | cons p rest ih =>
    simp only [dictAdd]
    by_cases hpk : p.1 = k
    · simp [if_pos hpk, hpk]
    · rw [if_neg hpk]
      have hkp : ¬(k = p.1) := fun hh => hpk hh.symm
      by_cases hk : k ∈ rest.map Prod.fst
      · simp [ih, hk, hkp]
      · simp [ih, hk, hkp]

theorem mem_dictAdd_keys {α : Type} [DecidableEq α] (l : List (α × ℚ)) (k k' : α) (v : ℚ) :
    k' ∈ (dictAdd l k v).map Prod.fst ↔ k' ∈ l.map Prod.fst ∨ k' = k := by
  rw [dictAdd_keys]
  by_cases hk : k ∈ l.map Prod.fst
  · simp only [if_pos hk]
    constructor
    · exact fun h => Or.inl h
    · rintro (h | rfl)
      · exact h
      · exact hk
  · simp [if_neg hk]

theorem dictAdd_keys_nodup {α : Type} [DecidableEq α] (l : List (α × ℚ)) (k : α) (v : ℚ)
    (h : (l.map Prod.fst).Nodup) : ((dictAdd l k v).map Prod.fst).Nodup := by
  rw [dictAdd_keys]
  by_cases hk : k ∈ l.map Prod.fst
  · simpa [if_pos hk] using h
  · simp [if_neg hk, List.nodup_append, h, hk]

theorem dictAdd_length {α : Type} [DecidableEq α] (l : List (α × ℚ)) (k : α) (v : ℚ) :
    (dictAdd l k v).length ≤ l.length + 1 := by
  induction l with
  | nil => simp [dictAdd]
  | cons p rest ih =>
    simp only [dictAdd]
    by_cases hpk : p.1 = k
    · simp [if_pos hpk]
    · simp only [if_neg hpk, List.length_cons]
      omega

theorem foldDict_mem_keys {α : Type} [DecidableEq α] (ps : List (α × ℚ)) :
    ∀ (acc : List (α × ℚ)) (k : α),
      k ∈ (ps.foldl (fun a p => dictAdd a p.1 p.2) acc).map Prod.fst ↔
        k ∈ acc.map Prod.fst ∨ k ∈ ps.map Prod.fst := by
  induction ps with
  | nil => intro acc k; simp
  | cons p rest ih =>
    intro acc k
    simp only [List.foldl_cons, List.map_cons, List.mem_cons]
    rw [ih, mem_dictAdd_keys]
    tauto

theorem foldDict_keys_nodup {α : Type} [DecidableEq α] (ps : List (α × ℚ)) :
    ∀ acc : List (α × ℚ), (acc.map Prod.fst).Nodup →
      ((ps.foldl (fun a p => dictAdd a p.1 p.2) acc).map Prod.fst).Nodup := by
  induction ps with
  | nil => intro acc h; simpa using h
  | cons p rest ih =>
    intro acc h
    exact ih _ (dictAdd_keys_nodup _ _ _ h)

theorem foldDict_keys {α : Type} [DecidableEq α] (ps : List (α × ℚ)) :
    ∀ acc : List (α × ℚ),
      (ps.foldl (fun a p => dictAdd a p.1 p.2) acc).map Prod.fst =
        (ps.map Prod.fst).foldl (fun ks k => if k ∈ ks then ks else ks ++ [k])
          (acc.map Prod.fst) := by
  induction ps with
  | nil => intro acc; simp
  | cons p rest ih =>
    intro acc
    simp only [List.foldl_cons, List.map_cons]
    rw [ih, dictAdd_keys]

theorem foldDict_length {α : Type} [DecidableEq α] (ps : List (α × ℚ)) :
    ∀ acc : List (α × ℚ),
      (ps.foldl (fun a p => dictAdd a p.1 p.2) acc).length ≤ acc.length + ps.length := by
  induction ps with
  | nil => intro acc; simp
  | cons p rest ih =>
    intro acc
    simp only [List.foldl_cons, List.length_cons]
    have h1 := ih (dictAdd acc p.1 p.2)
    have h2 := dictAdd_length acc p.1 p.2
    omega

theorem keySum_nil {α : Type} [DecidableEq α] (k : α) : keySum ([] : List (α × ℚ)) k = 0 := by
  simp [keySum]

theorem keySum_cons {α : Type} [DecidableEq α] (p : α × ℚ) (rest : List (α × ℚ)) (k : α) :
    keySum (p :: rest) k = (if p.1 = k then p.2 else 0) + keySum rest k := by
  by_cases h : p.1 = k <;> simp [keySum, List.filter_cons, h]

theorem foldDict_lookup {α : Type} [DecidableEq α] (ps : List (α × ℚ)) :
    ∀ (acc : List (α × ℚ)) (k : α),
      lookupQ (ps.foldl (fun a p => dictAdd a p.1 p.2) acc) k =
        match lookupQ acc k with
        | some v => some (v + keySum ps k)
        | none => if k ∈ ps.map Prod.fst then some (keySum ps k) else none := by
  induction ps with
  | nil =>
    intro acc k
    match h : lookupQ acc k with
    | some v => simp [keySum, h]
    | none => simp [keySum, h]
  | cons p rest ih =>
    intro acc k
    simp only [List.foldl_cons]
    rw [ih, dictAdd_lookup, keySum_cons]
    by_cases hk : k = p.1
    · subst hk
      rw [if_pos rfl, if_pos rfl]
      match h : lookupQ acc p.1 with
      | some w => simp [h, add_assoc]
      | none => simp [h]
    · have hk2 : ¬(p.1 = k) := fun hh => hk hh.symm
      rw [if_neg hk, if_neg hk2, zero_add]
      match h : lookupQ acc k with
      | some w => simp [h]
      | none =>
        simp only [h, List.map_cons, List.mem_cons]
        by_cases hr : k ∈ rest.map Prod.fst
        · rw [if_pos hr, if_pos (Or.inr hr)]
        · rw [if_neg hr, if_neg (fun hh => hh.elim (fun u => hk u) (fun u => hr u))]

theorem lookupQ_of_mem {α : Type} [DecidableEq α] :
    ∀ (l : List (α × ℚ)), (l.map Prod.fst).Nodup →
      ∀ (k : α) (v : ℚ), (k, v) ∈ l → lookupQ l k = some v := by
  intro l
  induction l with
  | nil => intro _ k v h; simp at h
  | cons p rest ih =>
    intro hnd k v hm
    rcases List.mem_cons.mp hm with h | h
    · rw [← h]
      simp [lookupQ, List.find?]
    · have hk : k ∈ rest.map Prod.fst := by
        exact List.mem_map.mpr ⟨(k, v), h, rfl⟩
      have hne : ¬(p.1 = k) := by
        simp only [List.map_cons, List.nodup_cons] at hnd
        exact fun hh => hnd.1 (hh ▸ hk)
      have hnd2 : (rest.map Prod.fst).Nodup := by
        simp only [List.map_cons, List.nodup_cons] at hnd
        exact hnd.2
      simp only [lookupQ, List.find?, hne]
      simpa [lookupQ, hne] using ih hnd2 k v h

theorem groupFold_keys {α : Type} [DecidableEq α] (ps : List (α × ℚ)) :
    (groupFold ps).map Prod.fst = firstKeys (ps.map Prod.fst) := by
  simpa [groupFold, firstKeys] using foldDict_keys ps []

theorem groupFold_mem_keys {α : Type} [DecidableEq α] (ps : List (α × ℚ)) (k : α) :
    k ∈ (groupFold ps).map Prod.fst ↔ k ∈ ps.map Prod.fst := by
  simpa [groupFold] using foldDict_mem_keys ps [] k

theorem groupFold_keys_nodup {α : Type} [DecidableEq α] (ps : List (α × ℚ)) :
    ((groupFold ps).map Prod.fst).Nodup := by
  exact foldDict_keys_nodup ps [] (by simp)

theorem groupFold_length {α : Type} [DecidableEq α] (ps : List (α × ℚ)) :
    (groupFold ps).length ≤ ps.length := by
  simpa [groupFold] using foldDict_length ps []

theorem groupFold_value {α : Type} [DecidableEq α] (ps : List (α × ℚ)) (k : α) (v : ℚ)
    (h : (k, v) ∈ groupFold ps) : v = keySum ps k := by
  have hl := lookupQ_of_mem _ (groupFold_keys_nodup ps) k v h
  have hmem : k ∈ ps.map Prod.fst := by
    rw [← groupFold_mem_keys]
    exact List.mem_map.mpr ⟨(k, v), h, rfl⟩
  have hfd := foldDict_lookup ps [] k
  simp only [lookupQ, List.find?, Option.map_none'] at hfd
  rw [if_pos hmem] at hfd
  have h2 : some v = some (keySum ps k) := by
    rw [← hl]
    simpa [groupFold, lookupQ] using hfd
  exact Option.some_injective _ h2

theorem foldl_add_map {β : Type} (f : β → ℚ) (l : List β) :
    ∀ i : ℚ, l.foldl (fun t x => t + f x) i = i + (l.map f).sum := by
  induction l with
  | nil => intro i; simp
  | cons x xs ih => intro i; simp [ih, add_assoc]

theorem foldl_insert_cats (l : List Expense) :
    ∀ s : Finset String,
      l.foldl (fun s e => insert e.category s) s = s ∪ (l.map Expense.category).toFinset := by
  induction l with
  | nil => intro s; simp
  | cons e rest ih =>
    intro s
    simp only [List.foldl_cons, List.map_cons, List.toFinset_cons]
    rw [ih]
    ext x
    simp only [Finset.mem_union, Finset.mem_insert, List.mem_toFinset]
    tauto

theorem rebuild_categories_eq (l : List Expense) :
    _rebuild_categories l = (l.map Expense.category).toFinset := by
  simpa [_rebuild_categories] using foldl_insert_cats l ∅

theorem stringDataEq {a b : String} (h : a.data = b.data) : a = b := by
  cases a; cases b; exact congrArg String.mk h

theorem mergeSort_take_facts {α : Type} (le : α → α → Bool)
    (htr : ∀ a b c, le a b = true → le b c = true → le a c = true)
    (hto : ∀ a b, (le a b || le b a) = true)
    (l : List α) (n : Nat) :
    l.Perm ((l.mergeSort le).take n ++ (l.mergeSort le).drop n) ∧
    (∀ x ∈ (l.mergeSort le).take n, ∀ y ∈ (l.mergeSort le).drop n, le x y = true) ∧
    ((l.mergeSort le).take n).Pairwise (fun a b => le a b = true) ∧
    ((l.mergeSort le).take n).length = min n l.length := by
  have hperm := List.mergeSort_perm l le
  have hsort := List.sorted_mergeSort htr hto l
  refine ⟨?_, ?_, ?_, ?_⟩
  · rw [List.take_append_drop]; exact hperm.symm
  · intro x hx y hy
    have h2 : ((l.mergeSort le).take n ++ (l.mergeSort le).drop n).Pairwise
        (fun a b => le a b = true) := by
      rw [List.take_append_drop]; exact hsort
    exact (List.pairwise_append.mp h2).2.2 x hx y hy
  · exact List.Pairwise.sublist (List.take_sublist _ _) hsort
  · rw [List.length_take, List.length_mergeSort]

theorem leAmountDesc_trans :
    ∀ a b c : Expense, leAmountDesc a b = true → leAmountDesc b c = true →
      leAmountDesc a c = true := by
  intro a b c h1 h2
  simp only [leAmountDesc, decide_eq_true_eq] at h1 h2 ⊢
  exact le_trans h2 h1

theorem leAmountDesc_total :
    ∀ a b : Expense, (leAmountDesc a b || leAmountDesc b a) = true := by
  intro a b
  simp only [leAmountDesc, Bool.or_eq_true, decide_eq_true_eq]
  exact le_total b.amount a.amount

theorem leSndDesc_trans {α : Type} :
    ∀ p q r : α × ℚ, leSndDesc p q = true → leSndDesc q r = true →
      leSndDesc p r = true := by
  intro p q r h1 h2
  simp only [leSndDesc, decide_eq_true_eq] at h1 h2 ⊢
  exact le_trans h2 h1

theorem leSndDesc_total {α : Type} :
    ∀ p q : α × ℚ, (leSndDesc p q || leSndDesc q p) = true := by
  intro p q
  simp only [leSndDesc, Bool.or_eq_true, decide_eq_true_eq]
  exact le_total q.2 p.2

theorem leSndAsc_trans {α : Type} :
    ∀ p q r : α × ℚ, leSndAsc p q = true → leSndAsc q r = true →
      leSndAsc p r = true := by
  intro p q r h1 h2
  simp only [leSndAsc, decide_eq_true_eq] at h1 h2 ⊢
  exact le_trans h1 h2

theorem leSndAsc_total {α : Type} :
    ∀ p q : α × ℚ, (leSndAsc p q || leSndAsc q p) = true := by
  intro p q
  simp only [leSndAsc, Bool.or_eq_true, decide_eq_true_eq]
  exact le_total p.2 q.2

theorem leKeyPair_trans :
    ∀ p q r : String × ℚ, leKeyPair p q = true → leKeyPair q r = true →
      leKeyPair p r = true := by
  intro p q r h1 h2
  simp only [leKeyPair, Bool.or_eq_true, Bool.and_eq_true, decide_eq_true_eq] at h1 h2 ⊢
  rcases h1 with h1 | h1
  · rcases h2 with h2 | h2
    · exact Or.inl (lt_trans h1 h2)
    · rw [← h2.1]; exact Or.inl h1
  · rcases h2 with h2 | h2
    · rw [h1.1]; exact Or.inl h2
    · exact Or.inr ⟨h1.1.trans h2.1, le_trans h1.2 h2.2⟩

theorem leKeyPair_total :
    ∀ p q : String × ℚ, (leKeyPair p q || leKeyPair q p) = true := by
  intro p q
  simp only [leKeyPair, Bool.or_eq_true, Bool.and_eq_true, decide_eq_true_eq]
  rcases lt_trichotomy p.1.data q.1.data with h | h | h
  · exact Or.inl (Or.inl h)
  · have hpq : p.1 = q.1 := stringDataEq h
    rcases le_total p.2 q.2 with hv | hv
    · exact Or.inl (Or.inr ⟨hpq, hv⟩)
    · exact Or.inr (Or.inr ⟨hpq.symm, hv⟩)
  · exact Or.inr (Or.inl h)

/-- Sample catalog item, matching the demo data of the sales program. -/
def prodLaptop : Product := ⟨"Laptop", "Electronics", 1200⟩

/-- Second sample catalog item. -/
def prodChair : Product := ⟨"Desk Chair", "Furniture", 350⟩

/-- Sample sale. -/
def saleOne : Sale := ⟨1, prodLaptop, 3, ⟨2024, 1, 15⟩⟩

/-- Second sample sale. -/
def saleTwo : Sale := ⟨2, prodChair, 5, ⟨2024, 1, 20⟩⟩

/-- Sample expense. -/
def expFood : Expense := ⟨12, "Food", "2024-01-05", "lunch"⟩

/-- Second sample expense. -/
def expBills : Expense := ⟨5, "Bills", "2024-02-01", ""⟩

/-- Sample manager state holding the two sample expenses. -/
def mgrSample : ExpenseManager := ⟨[expFood, expBills], {"Food", "Bills"}⟩

/-- The sample manager with the expenses in the opposite order. -/
def mgrSampleSwapped : ExpenseManager := ⟨[expBills, expFood], {"Food", "Bills"}⟩

/-- Sample analytics state holding the two sample sales. -/
def anaSample : Sales_analytics := ⟨[saleOne, saleTwo]⟩

/-- The sample analytics state with the sales in the opposite order. -/
def anaSampleSwapped : Sales_analytics := ⟨[saleTwo, saleOne]⟩

/-- C1: `total_spent` / `total_revenue` equals the sum of the individually
computed revenues of the stored records, is `0` on an empty collection,
and is invariant under permutation of the record list. -/
theorem totals_are_order_independent_sums (m mP : ExpenseManager)
    (a aP : Sales_analytics)
    (hm : m.expenses.Perm mP.expenses) (ha : a.sales.Perm aP.sales) :
    m.total_spent = (m.expenses.map Expense.amount).sum ∧
    (m.expenses = [] → m.total_spent = 0) ∧
    m.total_spent = mP.total_spent ∧
    a.total_revenue = (a.sales.map Sale.get_revenue).sum ∧
    (a.sales = [] → a.total_revenue = 0) ∧
    a.total_revenue = aP.total_revenue := by
  have h1 : ∀ mm : ExpenseManager,
      mm.total_spent = (mm.expenses.map Expense.amount).sum := by
    intro mm
    simpa [ExpenseManager.total_spent] using foldl_add_map Expense.amount mm.expenses 0
  have h2 : ∀ aa : Sales_analytics,
      aa.total_revenue = (aa.sales.map Sale.get_revenue).sum := by
    intro aa
    simpa [Sales_analytics.total_revenue] using foldl_add_map Sale.get_revenue aa.sales 0
  refine ⟨h1 m, ?_, ?_, h2 a, ?_, ?_⟩
  · intro h; simp [h1 m, h]
  · rw [h1 m, h1 mP]; exact (hm.map Expense.amount).sum_eq
  · intro h; simp [h2 a, h]
  · rw [h2 a, h2 aP]; exact (ha.map Sale.get_revenue).sum_eq

/-- Witness for C1 at the sample data: the permutation hypotheses hold for
the swapped sample states. -/
theorem totals_are_order_independent_sums_witness :
    mgrSample.total_spent = mgrSampleSwapped.total_spent ∧
    anaSample.total_revenue = anaSampleSwapped.total_revenue := by
  have h := totals_are_order_independent_sums mgrSample mgrSampleSwapped
    anaSample anaSampleSwapped (List.Perm.swap expBills expFood [])
    (List.Perm.swap saleTwo saleOne [])
  exact ⟨h.2.2.1, h.2.2.2.2.2⟩

theorem pySlice_nonneg {α : Type} (l : List α) (n : Int) (h : 0 ≤ n) :
    pySlice l n = l.take n.toNat := by
  simp only [pySlice]
  rw [if_neg (by omega)]

/-- C2 (amended): for nonnegative `n`, `top_expenses` / `top_product` /
`lowest_product` return the first `n` entries of the stable
highest-first (resp. lowest-first) ranking: a prefix of a sorted
permutation whose dropped part is dominated by it, of length
`min n (size)`, all entries for `n ≥ size`, empty for `n = 0`, with ties
kept in first-occurrence order (stability).  The original claim's
`n ≤ 0 → empty` holds only for `n = 0`: a negative `n` is a Python slice
`[:n]`, which drops the last `-n` entries instead. -/
theorem top_bottom_ranked_slices (m : ExpenseManager) (a : Sales_analytics) (n : Int)
    (hn : 0 ≤ n) :
    (m.top_expenses n = (m.expenses.mergeSort leAmountDesc).take n.toNat) ∧
    m.expenses.Perm ((m.expenses.mergeSort leAmountDesc).take n.toNat ++
      (m.expenses.mergeSort leAmountDesc).drop n.toNat) ∧
    (∀ x ∈ m.top_expenses n, ∀ y ∈ (m.expenses.mergeSort leAmountDesc).drop n.toNat,
      y.amount ≤ x.amount) ∧
    (m.top_expenses n).Pairwise (fun x y => y.amount ≤ x.amount) ∧
    (m.top_expenses n).length = min n.toNat m.expenses.length ∧
    (n = 0 → m.top_expenses n = []) ∧
    ((m.expenses.length : Int) ≤ n → (m.top_expenses n).Perm m.expenses) ∧
    (∀ c : List Expense, c.Sublist m.expenses →
      c.Pairwise (fun x y => x.amount = y.amount) →
      c.Sublist (m.expenses.mergeSort leAmountDesc)) ∧
    (a.top_product n = (a.productTotals.mergeSort leSndDesc).take n.toNat) ∧
    a.productTotals.Perm ((a.productTotals.mergeSort leSndDesc).take n.toNat ++
      (a.productTotals.mergeSort leSndDesc).drop n.toNat) ∧
    (∀ x ∈ a.top_product n, ∀ y ∈ (a.productTotals.mergeSort leSndDesc).drop n.toNat,
      y.2 ≤ x.2) ∧
    (a.top_product n).Pairwise (fun x y => y.2 ≤ x.2) ∧
    (a.top_product n).length = min n.toNat a.productTotals.length ∧
    (n = 0 → a.top_product n = []) ∧
    ((a.productTotals.length : Int) ≤ n → (a.top_product n).Perm a.productTotals) ∧
    (a.lowest_product n = (a.productTotals.mergeSort leSndAsc).take n.toNat) ∧
    (∀ x ∈ a.lowest_product n, ∀ y ∈ (a.productTotals.mergeSort leSndAsc).drop n.toNat,
      x.2 ≤ y.2) ∧
    (a.lowest_product n).Pairwise (fun x y => x.2 ≤ y.2) ∧
    (a.lowest_product n).length = min n.toNat a.productTotals.length ∧
    (n = 0 → a.lowest_product n = []) ∧
    ((a.productTotals.length : Int) ≤ n → (a.lowest_product n).Perm a.productTotals) ∧
    (∀ c : List (String × ℚ), c.Sublist a.productTotals →
      c.Pairwise (fun x y => x.2 = y.2) →
      c.Sublist (a.productTotals.mergeSort leSndDesc) ∧
      c.Sublist (a.productTotals.mergeSort leSndAsc)) := by
  obtain ⟨e1, e2, e3, e4⟩ := mergeSort_take_facts leAmountDesc leAmountDesc_trans
    leAmountDesc_total m.expenses n.toNat
  obtain ⟨t1, t2, t3, t4⟩ := mergeSort_take_facts leSndDesc leSndDesc_trans
    leSndDesc_total a.productTotals n.toNat
  obtain ⟨b1, b2, b3, b4⟩ := mergeSort_take_facts leSndAsc leSndAsc_trans
    leSndAsc_total a.productTotals n.toNat
  have hte : m.top_expenses n = (m.expenses.mergeSort leAmountDesc).take n.toNat := by
    simp only [ExpenseManager.top_expenses]; exact pySlice_nonneg _ _ hn
  have htp : a.top_product n = (a.productTotals.mergeSort leSndDesc).take n.toNat := by
    simp only [Sales_analytics.top_product]; exact pySlice_nonneg _ _ hn
  have hlp : a.lowest_product n = (a.productTotals.mergeSort leSndAsc).take n.toNat := by
    simp only [Sales_analytics.lowest_product]; exact pySlice_nonneg _ _ hn
  refine ⟨hte, e1, ?_, ?_, ?_, ?_, ?_, ?_, htp, t1, ?_, ?_, ?_, ?_, ?_, hlp, ?_, ?_, ?_, ?_, ?_, ?_⟩
  · intro x hx y hy
    rw [hte] at hx
    simpa [leAmountDesc] using e2 x hx y hy
  · rw [hte]
    exact e3.imp (by intro x y h; simpa [leAmountDesc] using h)
  · rw [hte]; exact e4
  · intro h; subst h; rw [hte]; simp
  · intro hlen
    rw [hte, List.take_of_length_le (by rw [List.length_mergeSort]; omega)]
    exact List.mergeSort_perm _ _
  · intro c hc hcp
    exact List.sublist_mergeSort leAmountDesc_trans leAmountDesc_total
      (hcp.imp (by intro x y h; simp [leAmountDesc, le_of_eq h.symm])) hc
  · intro x hx y hy
    rw [htp] at hx
    simpa [leSndDesc] using t2 x hx y hy
  · rw [htp]
    exact t3.imp (by intro x y h; simpa [leSndDesc] using h)
  · rw [htp]; exact t4
  · intro h; subst h; rw [htp]; simp
  · intro hlen
    rw [htp, List.take_of_length_le (by rw [List.length_mergeSort]; omega)]
    exact List.mergeSort_perm _ _
  · intro x hx y hy
    rw [hlp] at hx
    simpa [leSndAsc] using b2 x hx y hy
  · rw [hlp]
    exact b3.imp (by intro x y h; simpa [leSndAsc] using h)
  · rw [hlp]; exact b4
  · intro h; subst h; rw [hlp]; simp
  · intro hlen
    rw [hlp, List.take_of_length_le (by rw [List.length_mergeSort]; omega)]
    exact List.mergeSort_perm _ _
  · intro c hc hcp
    constructor
    · exact List.sublist_mergeSort leSndDesc_trans leSndDesc_total
        (hcp.imp (by intro x y h; simp [leSndDesc, le_of_eq h.symm])) hc
    · exact List.sublist_mergeSort leSndAsc_trans leSndAsc_total
        (hcp.imp (by intro x y h; simp [leSndAsc, le_of_eq h])) hc

/-- Expense worth 7, used by the C2 counterexample. -/
def expSeven : Expense := ⟨7, "A", "2024-01-01", ""⟩

/-- Expense worth 5, used by the C2 counterexample. -/
def expFive : Expense := ⟨5, "B", "2024-01-02", ""⟩

/-- Manager holding the amounts 7 and 5, already in descending order. -/
def mgrTwo : ExpenseManager := ⟨[expSeven, expFive], {"A", "B"}⟩

/-- Counterexample to C2 as stated: `n = -1` satisfies `n ≤ 0` but
`top_expenses (-1)` is the Python slice `[:-1]` of the ranking, which on
two expenses returns one expense, not an empty list. -/
theorem top_bottom_ranked_slices_counterexample :
    (-1 : Int) ≤ 0 ∧ mgrTwo.top_expenses (-1) = [expSeven] ∧
      mgrTwo.top_expenses (-1) ≠ [] := by
  have hs : [expSeven, expFive].mergeSort leAmountDesc = [expSeven, expFive] := by
    apply List.mergeSort_of_sorted
    refine List.Pairwise.cons ?_ (by simp)
    intro b hb
    rw [List.mem_singleton] at hb
    subst hb
    simp only [leAmountDesc, expSeven, expFive, decide_eq_true_eq]
    norm_num
  refine ⟨by norm_num, ?_, ?_⟩
  · simp only [ExpenseManager.top_expenses, mgrTwo, hs]
    rfl
  · simp only [ExpenseManager.top_expenses, mgrTwo, hs]
    intro h
    exact absurd h (by simp [pySlice])

/-- Witness for C2 (amended) at the sample data with `n = 1`. -/
theorem top_bottom_ranked_slices_witness :
    (mgrSample.top_expenses 1).length = min (1 : Int).toNat mgrSample.expenses.length :=
  (top_bottom_ranked_slices mgrSample anaSample 1 (by norm_num)).2.2.2.2.1

/-- C3 (amended): `date_tuple` returns the `(0, 0, 0)` sentinel exactly
when the date string does not split into three hyphen-separated
fragments; with three fragments it returns their integer values, but
raises `ValueError` (rather than returning the sentinel) when a fragment
is not an integer literal.  The sales variant has no sentinel at all:
`Sale` construction raises on every malformed date string. -/
theorem date_sentinel_behaviour (e : Expense) (sid : Int) (p : Product) (q : Int)
    (ds : String) :
    ((splitDash e.date.data).length ≠ 3 → e.date_tuple = .ok (0, 0, 0)) ∧
    (∀ pa pb pc : List Char, splitDash e.date.data = [pa, pb, pc] →
      (∀ y mo d : Int, pyInt pa = some y → pyInt pb = some mo → pyInt pc = some d →
        e.date_tuple = .ok (y, mo, d)) ∧
      ((pyInt pa = none ∨ pyInt pb = none ∨ pyInt pc = none) →
        e.date_tuple = .error "ValueError: invalid literal for int() with base 10")) ∧
    (strptimeYmd ds = none →
      Sale.make sid p q ds = .error "ValueError: time data does not match format") ∧
    (∀ d : PyDate, strptimeYmd ds = some d → Sale.make sid p q ds = .ok ⟨sid, p, q, d⟩) := by
  refine ⟨?_, ?_, ?_, ?_⟩
  · intro h
    rcases hsp : splitDash e.date.data with _ | ⟨pa, _ | ⟨pb, _ | ⟨pc, _ | ⟨pd, rest⟩⟩⟩⟩
    · simp only [Expense.date_tuple, hsp]
    · simp only [Expense.date_tuple, hsp]
    · simp only [Expense.date_tuple, hsp]
    · simp [hsp] at h
    · simp only [Expense.date_tuple, hsp]
  · intro pa pb pc hsp
    constructor
    · intro y mo d hy hmo hd
      simp only [Expense.date_tuple, hsp, hy, hmo, hd]
    · rintro (h | h | h)
      · simp only [Expense.date_tuple, hsp, h]
      · rcases hpa : pyInt pa with _ | y
        · simp only [Expense.date_tuple, hsp, hpa]
        · simp only [Expense.date_tuple, hsp, hpa, h]
      · rcases hpa : pyInt pa with _ | y
        · simp only [Expense.date_tuple, hsp, hpa]
        · rcases hpb : pyInt pb with _ | mo
          · simp only [Expense.date_tuple, hsp, hpa, hpb]
          · simp only [Expense.date_tuple, hsp, hpa, hpb, h]
  · intro h
    simp only [Sale.make, h]
  · intro d h
    simp only [Sale.make, h]

/-- Counterexample to C3 as stated: the malformed date `"a-b-c"` splits
into three fragments, so `date_tuple` calls `int("a")`, which raises
`ValueError` instead of yielding the `(0, 0, 0)` sentinel; and in the
sales variant a malformed date makes construction raise as well. -/
theorem date_sentinel_counterexample :
    (Expense.mk 1 "X" "a-b-c" "").date_tuple =
      .error "ValueError: invalid literal for int() with base 10" ∧
    (Expense.mk 1 "X" "a-b-c" "").date_tuple ≠ .ok (0, 0, 0) ∧
    Sale.make 1 prodLaptop 1 "bad-date" =
      .error "ValueError: time data does not match format" := by
  refine ⟨rfl, ?_, rfl⟩
  intro h
  exact Except.noConfusion h

/-- Witness for C3 (amended): a two-fragment date degrades to the
sentinel, a well-formed date parses, and a malformed sales date raises. -/
theorem date_sentinel_witness :
    (Expense.mk 1 "X" "2024" "").date_tuple = .ok (0, 0, 0) ∧
    (Expense.mk 2 "Y" "2024-03-10" "").date_tuple = .ok (2024, 3, 10) ∧
    Sale.make 3 prodChair 2 "nope" =
      .error "ValueError: time data does not match format" := by
  refine ⟨?_, ?_, ?_⟩
  · exact (date_sentinel_behaviour (Expense.mk 1 "X" "2024" "") 0 prodLaptop 0 "x").1
      (by decide)
  · exact ((date_sentinel_behaviour (Expense.mk 2 "Y" "2024-03-10" "") 0 prodLaptop 0
      "x").2.1 "2024".data "03".data "10".data (by decide)).1 2024 3 10
      (by decide) (by decide) (by decide)
  · exact (date_sentinel_behaviour (Expense.mk 1 "X" "2024" "") 3 prodChair 2
      "nope").2.2.1 (by decide)

theorem remove_out_of_range (m : ExpenseManager) (index : Int)
    (h : index < 0 ∨ (m.expenses.length : Int) ≤ index) :
    m.remove_expense_by_index index = (.error "IndexError: Index out of range", m) := by
  simp only [ExpenseManager.remove_expense_by_index]
  rw [dif_pos h]

theorem remove_in_range (m : ExpenseManager) (index : Int)
    (h0 : 0 ≤ index) (hidx : index.toNat < m.expenses.length) :
    m.remove_expense_by_index index =
      (.ok (m.expenses.get ⟨index.toNat, hidx⟩),
       ⟨m.expenses.take index.toNat ++ m.expenses.drop (index.toNat + 1),
        _rebuild_categories
          (m.expenses.take index.toNat ++ m.expenses.drop (index.toNat + 1))⟩) := by
  simp only [ExpenseManager.remove_expense_by_index]
  rw [dif_neg (by omega)]

theorem total_by_category_eq_groupFold (m : ExpenseManager) :
    m.total_by_category = groupFold (m.expenses.map fun e => (e.category, e.amount)) := by
  simp [ExpenseManager.total_by_category, groupFold, List.foldl_map]

theorem productTotals_eq_groupFold (a : Sales_analytics) :
    a.productTotals = groupFold (a.sales.map fun s => (s.product.name, s.get_revenue)) := by
  simp [Sales_analytics.productTotals, groupFold, List.foldl_map]

/-- C4: `remove_expense_by_index` raises `IndexError` exactly when the
index is outside `[0, len)`, leaving the state unchanged; in range it
returns the expense at that index and the state with that expense
removed and the category set rebuilt from scratch. -/
theorem remove_at_bounds (m : ExpenseManager) (index : Int) :
    ((index < 0 ∨ (m.expenses.length : Int) ≤ index) →
      m.remove_expense_by_index index = (.error "IndexError: Index out of range", m)) ∧
    (∀ (h0 : 0 ≤ index) (hidx : index.toNat < m.expenses.length),
      m.remove_expense_by_index index =
        (.ok (m.expenses.get ⟨index.toNat, hidx⟩),
         ⟨m.expenses.take index.toNat ++ m.expenses.drop (index.toNat + 1),
          _rebuild_categories
            (m.expenses.take index.toNat ++ m.expenses.drop (index.toNat + 1))⟩)) ∧
    ((m.remove_expense_by_index index).1 = .error "IndexError: Index out of range" ↔
      (index < 0 ∨ (m.expenses.length : Int) ≤ index)) := by
  refine ⟨remove_out_of_range m index, remove_in_range m index, ?_, ?_⟩
  · intro heq
    by_contra hno
    push_neg at hno
    have h0 : 0 ≤ index := by omega
    have hidx : index.toNat < m.expenses.length := by omega
    rw [remove_in_range m index h0 hidx] at heq
    exact Except.noConfusion heq
  · intro h
    rw [remove_out_of_range m index h]

/-- Witness for C4 at the sample manager: removing index 0 succeeds and
returns the removed expense with the recomputed category set. -/
theorem remove_at_bounds_witness :
    mgrSample.remove_expense_by_index 0 =
      (.ok expFood, ⟨[expBills], _rebuild_categories [expBills]⟩) :=
  (remove_at_bounds mgrSample 0).2.1 (by decide) (by decide)

/-- C5: the category set starts consistent, stays consistent through
every `add_expense` call (including rejected ones), and is consistent
after every successful removal since it is rebuilt from scratch; in
particular a category with no remaining expense after a removal appears
neither in the category set nor among the keys of `total_by_category`. -/
theorem category_set_consistency (m : ExpenseManager) (v : PyVal) (i : Int)
    (r : Expense) (mAfter : ExpenseManager)
    (hrem : m.remove_expense_by_index i = (.ok r, mAfter)) :
    categoriesConsistent ExpenseManager.init ∧
    (categoriesConsistent m → categoriesConsistent (m.add_expense v).2) ∧
    categoriesConsistent mAfter ∧
    (∀ c : String, c ∉ mAfter.expenses.map Expense.category →
      c ∉ mAfter.categories ∧ ∀ q ∈ mAfter.total_by_category, q.1 ≠ c) := by
  have hAfter : mAfter.categories = (mAfter.expenses.map Expense.category).toFinset := by
    by_cases h : i < 0 ∨ (m.expenses.length : Int) ≤ i
    · rw [remove_out_of_range m i h] at hrem
      exact absurd (congrArg Prod.fst hrem) (by simp)
    · push_neg at h
      have h0 : 0 ≤ i := h.1
      have hidx : i.toNat < m.expenses.length := by omega
      rw [remove_in_range m i h0 hidx] at hrem
      have h2 := congrArg Prod.snd hrem
      simp only at h2
      rw [← h2]
      exact rebuild_categories_eq _
  refine ⟨?_, ?_, hAfter, ?_⟩
  · simp [categoriesConsistent, ExpenseManager.init]
  · intro hc
    cases v with
    | expense e =>
      simp only [categoriesConsistent, ExpenseManager.add_expense] at hc ⊢
      rw [hc]
      ext x
      simp only [Finset.mem_insert, List.mem_toFinset, List.map_append, List.map_cons,
        List.map_nil, List.mem_append, List.mem_cons, List.not_mem_nil, or_false,
        List.mem_singleton]
      tauto
    | str s => simpa [ExpenseManager.add_expense] using hc
    | num q => simpa [ExpenseManager.add_expense] using hc
    | pyNone => simpa [ExpenseManager.add_expense] using hc
  · intro c hc
    constructor
    · rw [hAfter]
      simpa using hc
    · intro q hq hqc
      apply hc
      rw [← hqc]
      have hk : q.1 ∈ (mAfter.total_by_category).map Prod.fst :=
        List.mem_map.mpr ⟨q, hq, rfl⟩
      rw [total_by_category_eq_groupFold] at hk
      rw [groupFold_mem_keys] at hk
      simpa [List.map_map, Function.comp] using hk

/-- Witness for C5: the removal hypothesis holds concretely when index 0
is removed from the sample manager. -/
theorem category_set_consistency_witness :
    categoriesConsistent ⟨[expBills], _rebuild_categories [expBills]⟩ :=
  (category_set_consistency mgrSample (.expense expFood) 0 expFood
    ⟨[expBills], _rebuild_categories [expBills]⟩
    rfl).2.2.1

theorem keySum_map_eq {β α : Type} [DecidableEq α] (f : β → α × ℚ) (l : List β) (k : α) :
    keySum (l.map f) k =
      ((l.filter fun x => decide ((f x).1 = k)).map fun x => (f x).2).sum := by
  simp only [keySum, List.filter_map, List.map_map]
  rfl

theorem monthly_summary_ok (m : ExpenseManager)
    (h : ∀ e ∈ m.expenses, ∃ y mo d, e.date_tuple = .ok (y, mo, d)) :
    m.monthly_summary =
      .ok (groupFold (m.expenses.map fun e => (e.monthOf, e.amount))) := by
  suffices haux : ∀ (l : List Expense) (acc : List ((Int × Int) × ℚ)),
      (∀ e ∈ l, ∃ y mo d, e.date_tuple = .ok (y, mo, d)) →
      (l.foldlM (fun summary e => do
          let (y, mo, _) ← e.date_tuple
          pure (dictAdd summary (y, mo) e.amount)) acc : Except String _) =
        .ok (l.foldl (fun summary e => dictAdd summary e.monthOf e.amount) acc) by
    rw [ExpenseManager.monthly_summary, haux m.expenses [] h]
    congr 1
    simp [groupFold, List.foldl_map]
  intro l
  induction l with
  | nil => intro acc h2; rfl
  | cons e rest ih =>
    intro acc h2
    obtain ⟨y, mo, d, hd⟩ := h2 e (by simp)
    have hmo : e.monthOf = (y, mo) := by simp [Expense.monthOf, hd]
    rw [List.foldlM_cons, List.foldl_cons, hd, hmo]
    exact ih (dictAdd acc (y, mo) e.amount) (fun x hx => h2 x (by simp [hx]))

theorem monthly_trend_eq_sorted_groupFold (a : Sales_analytics) :
    a.monthly_trend =
      (groupFold (a.sales.map fun s => (monthKey s.date, s.get_revenue))).mergeSort
        leKeyPair := by
  simp [Sales_analytics.monthly_trend, groupFold, List.foldl_map]

/-- C6 (amended): both variants map each month bucket to the summed
revenue of the records in that month.  The sales variant's mapping is
sorted ascending by its `"YYYY-MM"` string key; the expense variant's
mapping is NOT sorted — its keys are in first-occurrence order. -/
theorem monthly_buckets (m : ExpenseManager) (a : Sales_analytics)
    (h : ∀ e ∈ m.expenses, ∃ y mo d, e.date_tuple = .ok (y, mo, d)) :
    (m.monthly_summary =
      .ok (groupFold (m.expenses.map fun e => (e.monthOf, e.amount)))) ∧
    (∀ L, m.monthly_summary = .ok L →
      L.map Prod.fst = firstKeys (m.expenses.map Expense.monthOf) ∧
      (∀ p ∈ L, p.2 =
        ((m.expenses.filter fun e => decide (e.monthOf = p.1)).map Expense.amount).sum) ∧
      (∀ k, k ∈ L.map Prod.fst ↔ k ∈ m.expenses.map Expense.monthOf)) ∧
    (a.monthly_trend).Pairwise (fun p q => p.1.data ≤ q.1.data) ∧
    (∀ p ∈ a.monthly_trend, p.2 =
      ((a.sales.filter fun s => decide (monthKey s.date = p.1)).map Sale.get_revenue).sum) ∧
    (∀ k, k ∈ (a.monthly_trend).map Prod.fst ↔
      k ∈ a.sales.map (fun s => monthKey s.date)) := by
  have hok := monthly_summary_ok m h
  have htrend := monthly_trend_eq_sorted_groupFold a
  have htrendperm : (a.monthly_trend).Perm
      (groupFold (a.sales.map fun s => (monthKey s.date, s.get_revenue))) := by
    rw [htrend]; exact List.mergeSort_perm _ _
  refine ⟨hok, ?_, ?_, ?_, ?_⟩
  · intro L hL
    rw [hok] at hL
    have hLe : L = groupFold (m.expenses.map fun e => (e.monthOf, e.amount)) := by
      injection hL.symm
    subst hLe
    refine ⟨?_, ?_, ?_⟩
    · rw [groupFold_keys]
      congr 1
      simp [List.map_map]
    · intro p hp
      have := groupFold_value _ _ _ (by simpa using hp)
      rw [this, keySum_map_eq]
    · intro k
      rw [groupFold_mem_keys]
      constructor
      · intro hk
        simpa [List.map_map] using hk
      · intro hk
        simpa [List.map_map] using hk
  · rw [htrend]
    have hs := List.sorted_mergeSort leKeyPair_trans leKeyPair_total
      (groupFold (a.sales.map fun s => (monthKey s.date, s.get_revenue)))
    refine hs.imp ?_
    intro p q hpq
    simp only [leKeyPair, Bool.or_eq_true, Bool.and_eq_true, decide_eq_true_eq] at hpq
    rcases hpq with h2 | h2
    · exact le_of_lt h2
    · exact le_of_eq (congrArg String.data h2.1)
  · intro p hp
    have hp2 : p ∈ groupFold (a.sales.map fun s => (monthKey s.date, s.get_revenue)) :=
      htrendperm.mem_iff.mp hp
    have := groupFold_value _ _ _ (by simpa using hp2)
    rw [this, keySum_map_eq]
  · intro k
    rw [(htrendperm.map Prod.fst).mem_iff, groupFold_mem_keys]
    constructor
    · intro hk
      simpa [List.map_map] using hk
    · intro hk
      simpa [List.map_map] using hk

/-- Expense dated February 2024, added first. -/
def expFeb : Expense := ⟨1, "A", "2024-02-01", ""⟩

/-- Expense dated January 2024, added second. -/
def expJan : Expense := ⟨2, "B", "2024-01-01", ""⟩

/-- Manager whose months arrive in descending order. -/
def mgrMonths : ExpenseManager := ⟨[expFeb, expJan], {"A", "B"}⟩

/-- Cheap sample product for the year counterexample. -/
def prodCheap : Product := ⟨"Widget", "Stuff", 2⟩

/-- A sale in January of year 5 (a valid `datetime` year). -/
def saleYearFive : Sale := ⟨1, prodCheap, 5, ⟨5, 1, 10⟩⟩

/-- A sale in January of year 2024. -/
def saleYearBig : Sale := ⟨2, prodCheap, 3, ⟨2024, 1, 15⟩⟩

/-- Analytics state mixing a one-digit and a four-digit year. -/
def anaYears : Sales_analytics := ⟨[saleYearBig, saleYearFive]⟩

/-- Counterexample to C6 as stated: the expense variant returns the
months in first-occurrence order `(2024,2), (2024,1)`, which is not
ascending; and the sales variant sorts by the `"YYYY-MM"` string, which
puts year 2024 before year 5, again not ascending by `(year, month)`. -/
theorem monthly_buckets_counterexample :
    mgrMonths.monthly_summary = .ok [((2024, 2), 1), ((2024, 1), 2)] ∧
    ¬ List.Pairwise
        (fun p q : (Int × Int) × ℚ =>
          p.1.1 < q.1.1 ∨ (p.1.1 = q.1.1 ∧ p.1.2 ≤ q.1.2))
        [((2024, 2), (1 : ℚ)), ((2024, 1), 2)] ∧
    anaYears.monthly_trend = [("2024-01", 6), ("5-01", 10)] ∧
    (5 : Int) < 2024 := by
  refine ⟨rfl, ?_, ?_, by norm_num⟩
  · intro hpw
    rcases List.pairwise_cons.mp hpw with ⟨h1, _⟩
    have h2 := h1 ((2024, 1), 2) (by simp)
    rcases h2 with h2 | ⟨h2, h3⟩
    · exact absurd h2 (by norm_num)
    · exact absurd h3 (by norm_num)
  · have hk1 : monthKey saleYearBig.date = "2024-01" := by decide
    have hk2 : monthKey saleYearFive.date = "5-01" := by decide
    have hr1 : saleYearBig.get_revenue = 6 := by
      norm_num [Sale.get_revenue, saleYearBig, prodCheap]
    have hr2 : saleYearFive.get_revenue = 10 := by
      norm_num [Sale.get_revenue, saleYearFive, prodCheap]
    have hg : anaYears.sales.foldl
        (fun t s => dictAdd t (monthKey s.date) s.get_revenue)
        ([] : List (String × ℚ)) = [("2024-01", 6), ("5-01", 10)] := by
      simp only [anaYears, List.foldl_cons, List.foldl_nil, hk1, hk2, hr1, hr2]
      norm_num [dictAdd]
      decide
    have hsorted : List.Pairwise (fun p q => leKeyPair p q = true)
        [("2024-01", (6 : ℚ)), ("5-01", 10)] := by
      refine List.Pairwise.cons ?_ (by simp)
      intro b hb
      rw [List.mem_singleton] at hb
      subst hb
      simp only [leKeyPair, Bool.or_eq_true, Bool.and_eq_true, decide_eq_true_eq]
      exact Or.inl (by decide)
    rw [Sales_analytics.monthly_trend, hg]
    exact List.mergeSort_of_sorted hsorted

/-- Witness for C6 (amended): the date hypothesis holds for the sample
manager, whose dates all parse. -/
theorem monthly_buckets_witness :
    mgrSample.monthly_summary =
      .ok (groupFold (mgrSample.expenses.map fun e => (e.monthOf, e.amount))) :=
  (monthly_buckets mgrSample anaSample (by
      intro e he
      simp only [mgrSample, List.mem_cons, List.not_mem_nil, or_false] at he
      rcases he with he | he
      · subst he; exact ⟨2024, 1, 5, rfl⟩
      · subst he; exact ⟨2024, 2, 1, rfl⟩)).1

/-- C7: in both variants the average is the total divided by the record
count on a non-empty collection and `0` on an empty one; the count-zero
guard means no division by zero is ever attempted. -/
theorem average_guarded (m : ExpenseManager) (a : Sales_analytics) :
    (m.expenses ≠ [] → m.average_expense = m.total_spent / (m.expenses.length : ℚ)) ∧
    (m.expenses = [] → m.average_expense = 0) ∧
    (a.sales ≠ [] → a.average_order_value = a.total_revenue / (a.sales.length : ℚ)) ∧
    (a.sales = [] → a.average_order_value = 0) := by
  refine ⟨?_, ?_, ?_, ?_⟩
  · intro h
    rw [ExpenseManager.average_expense,
      if_neg (fun hh => h (List.length_eq_zero.mp hh))]
  · intro h
    rw [ExpenseManager.average_expense, if_pos (by simp [h])]
  · intro h
    rw [Sales_analytics.average_order_value,
      if_neg (fun hh => h (List.length_eq_zero.mp hh))]
  · intro h
    rw [Sales_analytics.average_order_value, if_pos (by simp [h])]

/-- Witness for C7 at the non-empty sample states. -/
theorem average_guarded_witness :
    mgrSample.average_expense = mgrSample.total_spent / (mgrSample.expenses.length : ℚ) ∧
    anaSample.average_order_value = anaSample.total_revenue / (anaSample.sales.length : ℚ) :=
  ⟨(average_guarded mgrSample anaSample).1 (by simp [mgrSample]),
   (average_guarded mgrSample anaSample).2.2.1 (by simp [anaSample])⟩

/-- C8: `filter_by_category` gives identical results for query strings
that agree up to letter case, returns exactly the expenses whose
category matches case-insensitively, and the empty list (not an error)
when nothing matches. -/
theorem filter_category_case_insensitive (m : ExpenseManager) (c1 c2 : String)
    (h : pyLower c1 = pyLower c2) :
    m.filter_by_category c1 = m.filter_by_category c2 ∧
    (∀ e, e ∈ m.filter_by_category c1 ↔
      e ∈ m.expenses ∧ pyLower e.category = pyLower c1) ∧
    ((∀ e ∈ m.expenses, pyLower e.category ≠ pyLower c1) →
      m.filter_by_category c1 = []) := by
  refine ⟨?_, ?_, ?_⟩
  · simp [ExpenseManager.filter_by_category, h]
  · intro e
    simp [ExpenseManager.filter_by_category, List.mem_filter]
  · intro h2
    rw [ExpenseManager.filter_by_category]
    apply List.filter_eq_nil_iff.mpr
    intro e he
    simpa using h2 e he

/-- Witness for C8: `"Food"` and `"fOOD"` agree after lowering. -/
theorem filter_category_case_insensitive_witness :
    mgrSample.filter_by_category "Food" = mgrSample.filter_by_category "fOOD" :=
  (filter_category_case_insensitive mgrSample "Food" "fOOD" (by decide)).1

/-- C9: `add_expense` rejects every non-`Expense` argument with a
`TypeError` and leaves both the expense list and the category set
untouched; for an `Expense` it never fails, appends the record and
registers its category. -/
theorem add_rejects_non_records (m : ExpenseManager) (v : PyVal) (e : Expense) :
    ((∀ x : Expense, v ≠ .expense x) →
      m.add_expense v = (.error "TypeError: add_expense expects an Expense object", m)) ∧
    m.add_expense (.expense e) =
      (.ok (), ⟨m.expenses ++ [e], insert e.category m.categories⟩) := by
  constructor
  · intro h
    cases v with
    | expense x => exact absurd rfl (h x)
    | str s => rfl
    | num q => rfl
    | pyNone => rfl
  · rfl

/-- Witness for C9: a string argument is rejected with the state
unchanged. -/
theorem add_rejects_non_records_witness :
    mgrSample.add_expense (.str "oops") =
      (.error "TypeError: add_expense expects an Expense object", mgrSample) :=
  (add_rejects_non_records mgrSample (.str "oops") expFood).1
    (fun x hh => PyVal.noConfusion hh)

theorem revenue_by_category_eq_sorted_groupFold (a : Sales_analytics) :
    a.revenue_by_category =
      (groupFold (a.sales.map fun s => (s.product.category, s.get_revenue))).mergeSort
        leSndDesc := by
  simp [Sales_analytics.revenue_by_category, groupFold, List.foldl_map]

/-- C10: grouped totals are keyed by the exact case-preserved string, so
categories (or product names) differing only in letter case give
separate entries, even though `filter_by_category` identifies them. -/
theorem grouped_totals_case_preserving (m : ExpenseManager) (e1 e2 : Expense)
    (a : Sales_analytics) (s1 : Sale) (n : Int)
    (h1 : e1 ∈ m.expenses) (h2 : e2 ∈ m.expenses)
    (hne : e1.category ≠ e2.category)
    (hcase : pyLower e1.category = pyLower e2.category)
    (hs1 : s1 ∈ a.sales) (hn : (a.sales.length : Int) ≤ n) :
    e1.category ∈ (m.total_by_category).map Prod.fst ∧
    e2.category ∈ (m.total_by_category).map Prod.fst ∧
    (∃ q1 ∈ m.total_by_category, ∃ q2 ∈ m.total_by_category,
      q1.1 = e1.category ∧ q2.1 = e2.category ∧ q1 ≠ q2) ∧
    m.filter_by_category e1.category = m.filter_by_category e2.category ∧
    s1.product.category ∈ (a.revenue_by_category).map Prod.fst ∧
    s1.product.name ∈ (a.top_product n).map Prod.fst := by
  have hkeys : ∀ e ∈ m.expenses, e.category ∈ (m.total_by_category).map Prod.fst := by
    intro e he
    rw [total_by_category_eq_groupFold, groupFold_mem_keys]
    simp only [List.map_map]
    exact List.mem_map.mpr ⟨e, he, rfl⟩
  have hdistinct : ∃ q1 ∈ m.total_by_category, ∃ q2 ∈ m.total_by_category,
      q1.1 = e1.category ∧ q2.1 = e2.category ∧ q1 ≠ q2 := by
    obtain ⟨q1, hq1, hq1c⟩ := List.mem_map.mp (hkeys e1 h1)
    obtain ⟨q2, hq2, hq2c⟩ := List.mem_map.mp (hkeys e2 h2)
    refine ⟨q1, hq1, q2, hq2, hq1c, hq2c, ?_⟩
    intro hq
    exact hne (hq1c ▸ hq2c ▸ hq ▸ rfl)
  refine ⟨hkeys e1 h1, hkeys e2 h2, hdistinct, ?_, ?_, ?_⟩
  · simp [ExpenseManager.filter_by_category, hcase]
  · rw [revenue_by_category_eq_sorted_groupFold]
    rw [((List.mergeSort_perm _ _).map Prod.fst).mem_iff, groupFold_mem_keys]
    simp only [List.map_map]
    exact List.mem_map.mpr ⟨s1, hs1, rfl⟩
  · have hlen : a.productTotals.length ≤ a.sales.length := by
      rw [productTotals_eq_groupFold]
      simpa using groupFold_length (a.sales.map fun s => (s.product.name, s.get_revenue))
    have hn0 : 0 ≤ n := le_trans (by positivity) hn
    rw [Sales_analytics.top_product, pySlice_nonneg _ _ hn0,
      List.take_of_length_le (by rw [List.length_mergeSort]; omega)]
    rw [((List.mergeSort_perm _ _).map Prod.fst).mem_iff, productTotals_eq_groupFold,
      groupFold_mem_keys]
    simp only [List.map_map]
    exact List.mem_map.mpr ⟨s1, hs1, rfl⟩

/-- Second sample expense in the `Food` category with different casing. -/
def expFoodCase : Expense := ⟨3, "fOOD", "2024-01-07", ""⟩

/-- Manager holding two expenses whose categories differ only in case. -/
def mgrCase : ExpenseManager := ⟨[expFood, expFoodCase], {"Food", "fOOD"}⟩

/-- Witness for C10 at the case-differing sample data. -/
theorem grouped_totals_case_preserving_witness :
    expFood.category ∈ (mgrCase.total_by_category).map Prod.fst ∧
    expFoodCase.category ∈ (mgrCase.total_by_category).map Prod.fst :=
  ⟨(grouped_totals_case_preserving mgrCase expFood expFoodCase anaSample saleOne 2
      (by simp [mgrCase]) (by simp [mgrCase]) (by decide) (by decide)
      (by simp [anaSample]) (by decide)).1,
   (grouped_totals_case_preserving mgrCase expFood expFoodCase anaSample saleOne 2
      (by simp [mgrCase]) (by simp [mgrCase]) (by decide) (by decide)
      (by simp [anaSample]) (by decide)).2.1⟩
